import Mathlib

/-!
Verification of the projectTracker front-end module (`src/frontend/auth.js`)
against its natural-language specification.

The file shallowly embeds the JavaScript source: `localStorage` becomes an
association list from keys to strings, the credential mapping becomes an
association list from emails to credential records, and the event-driven
parts (WebSocket connection, frame-capture loop, reconnect logic, upload
flows) become explicit step functions over small state types, with event
traces as lists folded through the step function.
-/

/-! ## Session gate: credential store (`saveUser`, `checkUser`) -/

/-- A credential record `{ email, password }` as stored in the `users`
mapping (auth.js line 3). -/
structure Cred where
  email : String
  password : String
  deriving Repr, DecidableEq

/-- The parsed `users` object: a JS object keyed by email, modelled as an
association list in property-creation order. -/
def Users : Type := List (String × Cred)

/-- JS property lookup `users[email]` (auth.js line 8). -/
def lookupUser : Users → String → Option Cred
  | [], _ => none
  | (k, v) :: rest, e => if k == e then some v else lookupUser rest e

/-- JS property assignment `users[email] = { email, password }`
(auth.js line 3): overwrite in place if the key exists, else append. -/
def saveUser : Users → String → String → Users
  | [], e, p => [(e, ⟨e, p⟩)]
  | (k, v) :: rest, e, p =>
      if k == e then (k, ⟨e, p⟩) :: rest else (k, v) :: saveUser rest e p

/-- `checkUser(email, password)` (auth.js lines 6-10):
`!!(u && u.password === password)` where `u = users[email]`. -/
def checkUser (us : Users) (e p : String) : Bool :=
  match lookupUser us e with
  | some u => u.password == p
  | none => false

/-! ## Session gate: session marker (`setAuthed`, `requireAuth`) -/

/-- The browser `localStorage`: string keys to string values; `getItem`
returns `none` (JS `null`) for an absent key. -/
def Storage : Type := List (String × String)

/-- `localStorage.getItem(k)`. -/
def getItem : Storage → String → Option String
  | [], _ => none
  | (k, v) :: rest, q => if k == q then some v else getItem rest q

/-- `localStorage.setItem(k, v)`. -/
def setItem : Storage → String → String → Storage
  | [], k, v => [(k, v)]
  | (k0, v0) :: rest, k, v =>
      if k0 == k then (k0, v) :: rest else (k0, v0) :: setItem rest k v

/-- JS truthiness test `!x` for `x : string | null`: true when `x` is
`null` or the empty string. -/
def jsFalsy : Option String → Bool
  | none => true
  | some s => s == ""

/-- `setAuthed(email)` (auth.js lines 11-13): persist the session marker. -/
def setAuthed (st : Storage) (email : String) : Storage :=
  setItem st "auth_user" email

/-- `requireAuth()` (auth.js lines 14-18) returns whether it redirects to
`login.html`: it redirects exactly when `!localStorage.getItem('auth_user')`
is truthy. -/
def requireAuthRedirects (st : Storage) : Bool :=
  jsFalsy (getItem st "auth_user")

/-- Logout handler body (auth.js line 244): `localStorage.removeItem`. -/
def removeItem : Storage → String → Storage
  | [], _ => []
  | (k, v) :: rest, q => if k == q then rest else (k, v) :: removeItem rest q

/-! ## Register sequences for the last-write-wins property (C5) -/

/-- Apply a sequence of `saveUser(email, password)` calls in order. -/
def applyRegs (us : Users) (regs : List (String × String)) : Users :=
  regs.foldl (fun acc r => saveUser acc r.1 r.2) us

/-- The password of the most recent registration for `e` in the sequence,
if any. -/
def lastPw : List (String × String) → String → Option String
  | [], _ => none
  | (e', p) :: rs, e =>
      match lastPw rs e with
      | some q => some q
      | none => if e' == e then some p else none

/-! ## JSON layer (`JSON.parse` / `JSON.stringify`)

`saveUser` and `checkUser` read the stored string through
`JSON.parse(localStorage.getItem('users')||'{}')` (auth.js lines 2 and 7);
a malformed stored string makes `JSON.parse` throw, modelled as
`Except.error`. The parser below is a recursive-descent JSON parser with a
fuel argument for termination; escape handling is limited to the simple
escapes, which the claims never exercise. -/

inductive Json where
  | null
  | bool (b : Bool)
  | num (lit : String)
  | str (s : String)
  | arr (xs : List Json)
  | obj (fields : List (String × Json))
  deriving Repr

/-- Skip JSON whitespace. -/
def skipWs : List Char → List Char
  | c :: rest =>
      if c = ' ' ∨ c = '\t' ∨ c = '\n' ∨ c = '\r' then skipWs rest else c :: rest
  | [] => []

/-- Consume an expected literal character sequence. -/
def expectLit : List Char → List Char → Option (List Char)
  | [], rest => some rest
  | l :: ls, c :: rest => if c = l then expectLit ls rest else none
  | _ :: _, [] => none

/-- Parse the body of a JSON string after the opening quote. -/
def parseStringBody : Nat → List Char → List Char → Option (String × List Char)
  | 0, _, _ => none
  | _, [], _ => none
  | fuel + 1, c :: rest, acc =>
      if c = '"' then some (String.mk acc.reverse, rest)
      else if c = '\\' then
        match rest with
        | [] => none
        | e :: rest2 =>
            let ec := if e = 'n' then '\n' else if e = 't' then '\t'
              else if e = 'r' then '\r' else e
            parseStringBody fuel rest2 (ec :: acc)
      else parseStringBody fuel rest (c :: acc)

/-- Take a maximal run of decimal digits. -/
def takeDigits : List Char → List Char × List Char
  | [] => ([], [])
  | c :: rest =>
      if c.isDigit then
        let (ds, r) := takeDigits rest
        (c :: ds, r)
      else ([], c :: rest)

/-- Parse the exponent part of a JSON number after `e`/`E`. -/
def parseExpPart (cs : List Char) : Option (String × List Char) :=
  let (sign, cs1) :=
    match cs with
    | '+' :: r => ("+", r)
    | '-' :: r => ("-", r)
    | _ => ("", cs)
  let (ds, r) := takeDigits cs1
  if ds.isEmpty then none else some ("e" ++ sign ++ String.mk ds, r)

/-- Parse a JSON number, keeping its lexeme. -/
def parseNumber (cs : List Char) : Option (String × List Char) :=
  let (sign, cs1) :=
    match cs with
    | '-' :: r => ("-", r)
    | _ => ("", cs)
  let (ds, r1) := takeDigits cs1
  if ds.isEmpty then none
  else
    let fracStep : Option (String × List Char) :=
      match r1 with
      | '.' :: r =>
          let (fs, r') := takeDigits r
          if fs.isEmpty then none else some ("." ++ String.mk fs, r')
      | _ => some ("", r1)
    match fracStep with
    | none => none
    | some (frac, r2) =>
        let expStep : Option (String × List Char) :=
          match r2 with
          | 'e' :: r => parseExpPart r
          | 'E' :: r => parseExpPart r
          | _ => some ("", r2)
        match expStep with
        | none => none
        | some (ex, r3) => some (sign ++ String.mk ds ++ frac ++ ex, r3)

/-- Parser mode: a single value, the elements of an array after `[`, or the
fields of an object after the opening brace. -/
inductive PMode where
  | value
  | elems (acc : List Json)
  | fields (acc : List (String × Json))

/-- The recursive-descent JSON parser; `fuel` bounds recursion depth. -/
def parseJ : Nat → PMode → List Char → Option (Json × List Char)
  | 0, _, _ => none
  | fuel + 1, PMode.value, cs =>
      match skipWs cs with
      | [] => none
      | c :: rest =>
          if c = 'n' then (expectLit ['u', 'l', 'l'] rest).map (fun r => (Json.null, r))
          else if c = 't' then (expectLit ['r', 'u', 'e'] rest).map (fun r => (Json.bool true, r))
          else if c = 'f' then (expectLit ['a', 'l', 's', 'e'] rest).map (fun r => (Json.bool false, r))
          else if c = '"' then (parseStringBody rest.length rest []).map (fun sr => (Json.str sr.1, sr.2))
          else if c = '[' then
            match skipWs rest with
            | ']' :: r2 => some (Json.arr [], r2)
            | cs2 => parseJ fuel (PMode.elems []) cs2
          else if c = '\x7b' then
            match skipWs rest with
            | '\x7d' :: r2 => some (Json.obj [], r2)
            | cs2 => parseJ fuel (PMode.fields []) cs2
          else (parseNumber (c :: rest)).map (fun lr => (Json.num lr.1, lr.2))
  | fuel + 1, PMode.elems acc, cs =>
      match parseJ fuel PMode.value cs with
      | none => none
      | some (j, r1) =>
          match skipWs r1 with
          | ',' :: r2 => parseJ fuel (PMode.elems (j :: acc)) r2
          | ']' :: r2 => some (Json.arr (j :: acc).reverse, r2)
          | _ => none
  | fuel + 1, PMode.fields acc, cs =>
      match skipWs cs with
      | '"' :: r0 =>
          match parseStringBody r0.length r0 [] with
          | none => none
          | some (k, r1) =>
              match skipWs r1 with
              | ':' :: r2 =>
                  match parseJ fuel PMode.value r2 with
                  | none => none
                  | some (j, r3) =>
                      match skipWs r3 with
                      | ',' :: r4 => parseJ fuel (PMode.fields ((k, j) :: acc)) r4
                      | '\x7d' :: r4 => some (Json.obj ((k, j) :: acc).reverse, r4)
                      | _ => none
              | _ => none
      | _ => none

/-- `JSON.parse`: parse a complete JSON document; `none` models a thrown
`SyntaxError`. -/
def Json.parse (s : String) : Option Json :=
  match parseJ (2 * s.length + 4) PMode.value s.toList with
  | some (j, rest) => if (skipWs rest).isEmpty then some j else none
  | none => none

/-- JS `x || dflt` for `x : string | null`: the default replaces `null`
and the (falsy) empty string. -/
def jsOrDefault (x : Option String) (dflt : String) : String :=
  match x with
  | some s => if s == "" then dflt else s
  | none => dflt

/-- Field lookup in a parsed JSON object. -/
def getField : List (String × Json) → String → Option Json
  | [], _ => none
  | (k, v) :: rest, q => if k == q then some v else getField rest q

/-- Decode one stored credential record, when it has the expected shape. -/
def credOfJson : Json → Option Cred
  | Json.obj fs =>
      match getField fs "email", getField fs "password" with
      | some (Json.str e), some (Json.str p) => some ⟨e, p⟩
      | _, _ => none
  | _ => none

/-- Decode the parsed `users` document into the credential mapping. -/
def usersOfJson : Json → Users
  | Json.obj fs => fs.filterMap (fun kv => (credOfJson kv.2).map (fun c => (kv.1, c)))
  | _ => []

/-- Escape a string for JSON output. -/
def escapeString (s : String) : String :=
  s.toList.foldl
    (fun acc c =>
      if c = '"' then acc ++ "\\\""
      else if c = '\\' then acc ++ "\\\\"
      else acc ++ String.mk [c]) ""

/-- A JSON-quoted string. -/
def jsonQuote (s : String) : String := "\"" ++ escapeString s ++ "\""

/-- `JSON.stringify` of one credential record. -/
def credToJsonStr (c : Cred) : String :=
  "\x7b" ++ jsonQuote "email" ++ ":" ++ jsonQuote c.email ++ ","
    ++ jsonQuote "password" ++ ":" ++ jsonQuote c.password ++ "\x7d"

/-- `JSON.stringify` of the whole `users` mapping. -/
def usersToJsonStr (us : Users) : String :=
  "\x7b" ++ String.intercalate ","
    (us.map (fun kv => jsonQuote kv.1 ++ ":" ++ credToJsonStr kv.2)) ++ "\x7d"

/-- `checkUser` including the storage read and `JSON.parse`
(auth.js lines 6-10): a parse failure propagates as an error. -/
def checkUserStorage (st : Storage) (e p : String) : Except String Bool :=
  match Json.parse (jsOrDefault (getItem st "users") "\x7b\x7d") with
  | none => Except.error "SyntaxError: JSON.parse"
  | some j => Except.ok (checkUser (usersOfJson j) e p)

/-- `saveUser` including the storage read, `JSON.parse` and
`JSON.stringify` (auth.js lines 1-5): a parse failure propagates as an
error before anything is written. -/
def saveUserStorage (st : Storage) (e p : String) : Except String Storage :=
  match Json.parse (jsOrDefault (getItem st "users") "\x7b\x7d") with
  | none => Except.error "SyntaxError: JSON.parse"
  | some j =>
      Except.ok (setItem st "users" (usersToJsonStr (saveUser (usersOfJson j) e p)))

/-! ## Frame-capture loop (`captureLoop`, auth.js lines 108-135)

The loop state holds the module-level `sending` flag (line 52), the
observable socket and camera conditions read by the guard
(lines 109-114), and the number of outstanding `toBlob` callbacks, i.e.
encode-or-send operations currently in flight. Events are the
animation-frame tick, the completion of one `toBlob` encode (the callback
of lines 122-132), and changes of the socket/camera conditions. -/

/-- An encoded frame payload (the blob handed to the `toBlob` callback). -/
abbrev Payload : Type := List Nat

/-- Result of running the `toBlob` callback (auth.js lines 123-129):
what was sent on the socket, and the value of `sending` afterwards. -/
structure ToBlobResult where
  sent : Option Payload
  sendingAfter : Bool
  deriving Repr

/-- The `toBlob` callback body (auth.js lines 123-129): send the buffer
only `if (blob && ws && ws.readyState === WebSocket.OPEN)`; in every case
finish with `sending = false`. -/
def toBlobCallback (blob : Option Payload) (wsOpen : Bool) : ToBlobResult :=
  match blob, wsOpen with
  | some b, true => { sent := some b, sendingAfter := false }
  | _, _ => { sent := none, sendingAfter := false }

/-- State of the frame-capture loop. -/
structure LoopState where
  sending : Bool
  wsOpen : Bool
  videoReady : Bool
  inFlight : Nat
  deriving Repr, DecidableEq

/-- Events driving the frame-capture loop. -/
inductive LoopEvent where
  | tick
  | encodeDone (blob : Option Payload)
  | wsOpenEvt
  | wsCloseEvt
  | videoReadyEvt
  | videoUnreadyEvt

/-- One step of the frame-capture loop. A `tick` runs the guard of
auth.js lines 109-114 and, when it passes, sets `sending = true`
(line 115) and starts one encode; `encodeDone` runs the `toBlob`
callback, which clears `sending` (line 128). -/
def loopStep (s : LoopState) : LoopEvent → LoopState
  | LoopEvent.tick =>
      if !s.sending && s.wsOpen && s.videoReady then
        { s with sending := true, inFlight := s.inFlight + 1 }
      else s
  | LoopEvent.encodeDone blob =>
      if s.inFlight > 0 then
        { s with
          sending := (toBlobCallback blob s.wsOpen).sendingAfter,
          inFlight := s.inFlight - 1 }
      else s
  | LoopEvent.wsOpenEvt => { s with wsOpen := true }
  | LoopEvent.wsCloseEvt => { s with wsOpen := false }
  | LoopEvent.videoReadyEvt => { s with videoReady := true }
  | LoopEvent.videoUnreadyEvt => { s with videoReady := false }

/-- Initial loop state: `sending = false` (auth.js line 52), socket not
yet open, camera not yet ready, nothing in flight. -/
def loopInit : LoopState :=
  { sending := false, wsOpen := false, videoReady := false, inFlight := 0 }

/-- Run the loop over a sequence of events. -/
def loopRun (evs : List LoopEvent) : LoopState :=
  evs.foldl loopStep loopInit

/-! ## Per-connection message log (`connectWS` handlers, auth.js 78-96,
settings handlers, auth.js 229-238, frame sends, auth.js 122-132) -/

/-- A WebSocket message sent by the client: UTF-8 text or binary. -/
inductive Msg where
  | text (s : String)
  | bin (payload : List Nat)
  deriving Repr, DecidableEq

/-- Status of one WebSocket connection. -/
inductive ConnStatus where
  | connecting
  | opened
  | closedC
  deriving Repr, DecidableEq

/-- One connection together with the UI settings and everything the client
has sent on it, in order. -/
structure ConnState where
  status : ConnStatus
  sent : List Msg
  color : String
  conf : String
  deriving Repr

/-- Events on one connection: the handshake completing (firing `ws.onopen`),
a frame-loop send, the socket closing, and the user changing the color
selector or the confidence slider. -/
inductive ConnEvent where
  | handshake
  | frameSend (payload : List Nat)
  | closeEvt
  | setColor (c : String)
  | setConf (v : String)

/-- One step of the connection model. `handshake` runs the `onopen` handler
(auth.js lines 81-84), which sends `color=` then `conf=`; `frameSend` is the
capture-loop send, possible only on an open socket (auth.js line 124);
`setColor`/`setConf` run the settings handlers (auth.js lines 229-238),
which update the control value and send one message only when the socket is
open. -/
def connStep (s : ConnState) : ConnEvent → ConnState
  | ConnEvent.handshake =>
      match s.status with
      | ConnStatus.connecting =>
          { s with
            status := ConnStatus.opened,
            sent := s.sent ++ [Msg.text ("color=" ++ s.color), Msg.text ("conf=" ++ s.conf)] }
      | _ => s
  | ConnEvent.frameSend p =>
      match s.status with
      | ConnStatus.opened => { s with sent := s.sent ++ [Msg.bin p] }
      | _ => s
  | ConnEvent.closeEvt => { s with status := ConnStatus.closedC }
  | ConnEvent.setColor c =>
      match s.status with
      | ConnStatus.opened => { s with color := c, sent := s.sent ++ [Msg.text ("color=" ++ c)] }
      | _ => { s with color := c }
  | ConnEvent.setConf v =>
      match s.status with
      | ConnStatus.opened => { s with conf := v, sent := s.sent ++ [Msg.text ("conf=" ++ v)] }
      | _ => { s with conf := v }

/-- A fresh connection created by `new WebSocket(WS_URL)` with the current
settings values. -/
def connInit (c0 v0 : String) : ConnState :=
  { status := ConnStatus.connecting, sent := [], color := c0, conf := v0 }

/-- Run the connection model over a sequence of events. -/
def connRun (c0 v0 : String) (evs : List ConnEvent) : ConnState :=
  evs.foldl connStep (connInit c0 v0)

/-- The sent log opens with a `color=` control message followed by a
`conf=` control message. -/
def ctrlHead (l : List Msg) : Prop :=
  ∃ c v rest, l = Msg.text ("color=" ++ c) :: Msg.text ("conf=" ++ v) :: rest

/-! ## Reconnect logic (`connectWS` / `ws.onclose`, auth.js lines 78-96,
start-button handler, auth.js lines 137-140)

Every call to `connectWS` creates a fresh `WebSocket` and repoints the
module-level `ws` variable at it (line 79); each socket's `onclose` handler
schedules `setTimeout(connectWS, 1000)` (line 95), including the handlers
of sockets `ws` no longer points at. The start button calls `connectWS`
whenever `ws` is absent or not open (line 138). The state records every
socket ever created (by status), which one `ws` points at, and the pending
reconnect timers with their delays in milliseconds. -/

/-- Status of one created socket. -/
inductive SockSt where
  | connecting
  | opened
  | closedS
  deriving Repr, DecidableEq

/-- A socket that is still connecting or open (its connection attempt is in
progress or succeeded, and not yet closed). -/
def isLive : SockSt → Bool
  | SockSt.closedS => false
  | _ => true

/-- State of the reconnect logic. -/
structure WsState where
  socks : List SockSt
  wsIdx : Option Nat
  timers : List Nat
  deriving Repr, DecidableEq

/-- `connectWS()` (auth.js line 79): create a fresh socket and repoint
`ws` at it. -/
def connectW (s : WsState) : WsState :=
  { s with socks := s.socks ++ [SockSt.connecting], wsIdx := some s.socks.length }

/-- Events: a start-button click, the handshake of socket `i` completing,
socket `i` closing (firing its `onclose`), and a pending reconnect timer
firing. -/
inductive WsEvent where
  | click
  | handshake (i : Nat)
  | closeEvt (i : Nat)
  | timerFire

/-- One step of the reconnect model. A `click` calls `connectWS` iff
`!ws || ws.readyState !== WebSocket.OPEN` (auth.js line 138); a close of a
live socket appends one 1000 ms reconnect timer (auth.js line 95); a timer
firing removes itself and calls `connectWS`. -/
def wsStep (s : WsState) : WsEvent → WsState
  | WsEvent.click =>
      match s.wsIdx with
      | none => connectW s
      | some i => if s.socks[i]? = some SockSt.opened then s else connectW s
  | WsEvent.handshake i =>
      if s.socks[i]? = some SockSt.connecting then
        { s with socks := s.socks.set i SockSt.opened }
      else s
  | WsEvent.closeEvt i =>
      match s.socks[i]? with
      | some SockSt.connecting =>
          { s with socks := s.socks.set i SockSt.closedS, timers := s.timers ++ [1000] }
      | some SockSt.opened =>
          { s with socks := s.socks.set i SockSt.closedS, timers := s.timers ++ [1000] }
      | _ => s
  | WsEvent.timerFire =>
      match s.timers with
      | [] => s
      | _ :: rest => connectW { s with timers := rest }

/-- Before the page does anything: no socket, no timer. -/
def wsInit : WsState := { socks := [], wsIdx := none, timers := [] }

/-- Run the reconnect model over a sequence of events. -/
def wsRun (s0 : WsState) (evs : List WsEvent) : WsState :=
  evs.foldl wsStep s0

/-- Number of sockets whose connection attempt is in progress or open. -/
def liveCount (s : WsState) : Nat :=
  (s.socks.filter isLive).length

/-- An event sequence containing no start-button click. -/
def noClick : List WsEvent → Bool
  | [] => true
  | WsEvent.click :: _ => false
  | _ :: rest => noClick rest

/-! ## Batch upload flows (auth.js lines 143-176 and 179-227) -/

/-- The enabled state and label of a trigger control. -/
structure BtnState where
  disabled : Bool
  label : String
  deriving Repr, DecidableEq

/-- Outcome of one submission: success, a non-2xx response (the handler
throws `Error("Server error")`, line 160/200), or a transport error whose
message comes from the rejected `fetch`. -/
inductive Outcome where
  | success
  | serverError
  | networkError (msg : String)

/-- The image-submit click handler (auth.js lines 143-176): early return
with an alert when no file is chosen; otherwise disable the control, set
the label to `Processing…`, run the request, alert on any caught error, and
restore the control in the `finally` block (lines 172-175). Returns the
final control state and the alerts shown. -/
def submitImageClick (file : Option String) (btn : BtnState) (outcome : Outcome) :
    BtnState × List String :=
  match file with
  | none => (btn, ["Choose an image first."])
  | some _ =>
      let btn1 : BtnState := { btn with disabled := true, label := "Processing…" }
      let alerts : List String :=
        match outcome with
        | Outcome.success => []
        | Outcome.serverError => ["Failed: Server error"]
        | Outcome.networkError m => ["Failed: " ++ m]
      ({ btn1 with disabled := false, label := "Submit Image" }, alerts)

/-- The video-submit click handler (auth.js lines 179-227): same shape as
the image flow, with its own labels and alert messages, restored in the
`finally` block (lines 223-226). -/
def submitVideoClick (file : Option String) (btn : BtnState) (outcome : Outcome) :
    BtnState × List String :=
  match file with
  | none => (btn, ["Choose a video first."])
  | some _ =>
      let btn1 : BtnState := { btn with disabled := true, label := "Processing…" }
      let alerts : List String :=
        match outcome with
        | Outcome.success => []
        | Outcome.serverError => ["Failed to process video: Server error"]
        | Outcome.networkError m => ["Failed to process video: " ++ m]
      ({ btn1 with disabled := false, label := "Submit Video" }, alerts)

/-! ## Helper lemmas: credential store and storage -/

theorem lookupUser_saveUser (us : Users) (e p q : String) :
    lookupUser (saveUser us e p) q =
      if e == q then some ⟨e, p⟩ else lookupUser us q := by
  induction us with
  | nil => rfl
  | cons kv rest ih =>
      obtain ⟨k, v⟩ := kv
      by_cases hk : k = e
      · subst hk
        by_cases hq : k = q
        · subst hq
          simp [saveUser, lookupUser]
        · have hq' : (k == q) = false := by simpa using hq
          simp [saveUser, lookupUser, hq']
      · have hk' : (k == e) = false := by simpa using hk
        by_cases hq : k = q
        · subst hq
          have hek : ¬e = k := fun h => hk h.symm
          have he : (e == k) = false := by simpa using hek
          simp [saveUser, lookupUser, hk', he, hek]
        · have hq' : (k == q) = false := by simpa using hq
          simp [saveUser, lookupUser, hk', hq', ih]

theorem getItem_setItem_self (st : Storage) (k v : String) :
    getItem (setItem st k v) k = some v := by
  induction st with
  | nil => simp [setItem, getItem]
  | cons kv rest ih =>
      obtain ⟨k0, v0⟩ := kv
      by_cases hk : k0 = k
      · subst hk; simp [setItem, getItem]
      · have hk' : (k0 == k) = false := by simpa using hk
        simp [setItem, getItem, hk', ih]

theorem lookupUser_applyRegs (regs : List (String × String)) (e : String) :
    ∀ us, lookupUser (applyRegs us regs) e =
      match lastPw regs e with
      | some p => some ⟨e, p⟩
      | none => lookupUser us e := by
  induction regs with
  | nil => intro us; rfl
  | cons r rs ih =>
      intro us
      obtain ⟨e', p⟩ := r
      have hstep : applyRegs us ((e', p) :: rs) = applyRegs (saveUser us e' p) rs := rfl
      rw [hstep, ih]
      cases h : lastPw rs e with
      | some q => simp [lastPw, h]
      | none =>
          simp only [lastPw, h]
          rw [lookupUser_saveUser]
          by_cases he : e' = e
          · subst he; simp
          · have he' : (e' == e) = false := by simpa using he
            simp [he']

/-! ## C2: authenticate returns true iff a matching record exists -/

/-- C2: for every stored credential mapping, email and password,
`checkUser(email, password)` returns true iff a record exists for that
email and its password field equals the supplied password. -/
theorem checkUser_iff_recordMatches (us : Users) (e p : String) :
    checkUser us e p = true ↔
      ∃ u, lookupUser us e = some u ∧ u.password = p := by
  unfold checkUser
  cases h : lookupUser us e with
  | none => simp
  | some u => simp [beq_iff_eq]

/-! ## C5: register/authenticate round-trip, last write wins -/

/-- C5: for every sequence of `saveUser` calls, each email authenticates
with its most recently registered password; a sequence that never touches
an email leaves its authentication unchanged; a single registration leaves
every distinct email's authentication unchanged; and a duplicate
registration for the same email silently overwrites the record. -/
theorem registerAuthenticate_lastWriteWins (us : Users)
    (regs : List (String × String)) (e e' p p' p1 p2 : String) :
    (lastPw regs e = some p → checkUser (applyRegs us regs) e p = true) ∧
    (lastPw regs e = none →
      checkUser (applyRegs us regs) e p = checkUser us e p) ∧
    (e ≠ e' → checkUser (saveUser us e' p') e p = checkUser us e p) ∧
    lookupUser (saveUser (saveUser us e p1) e p2) e = some ⟨e, p2⟩ := by
  refine ⟨?_, ?_, ?_, ?_⟩
  · intro h
    unfold checkUser
    rw [lookupUser_applyRegs, h]
    simp
  · intro h
    unfold checkUser
    rw [lookupUser_applyRegs, h]
  · intro h
    unfold checkUser
    rw [lookupUser_saveUser]
    have he : (e' == e) = false := by
      simp only [beq_eq_false_iff_ne]
      exact fun hc => h hc.symm
    simp [he]
  · rw [lookupUser_saveUser]
    simp

/-- Witness for C5 at concrete inputs: registering `pw1` then `pw2` for
`a@x.com` authenticates with `pw2`. -/
theorem registerAuthenticate_lastWriteWins_witness :
    checkUser (applyRegs [] [("a@x.com", "pw1"), ("a@x.com", "pw2")])
      "a@x.com" "pw2" = true := by
  have h := registerAuthenticate_lastWriteWins []
    [("a@x.com", "pw1"), ("a@x.com", "pw2")] "a@x.com" "b@x.com" "pw2" "z" "pw1" "pw2"
  exact h.1 (by decide)

/-! ## C3: session-gate redirect

The claim fails on the code: `requireAuth` tests JS truthiness of
`localStorage.getItem('auth_user')` (auth.js line 15), and the empty
string is falsy, so after `setAuthed("")` the marker is present in
storage yet `requireAuth` still redirects. The property holds for every
nonempty email. -/

/-- C3 counterexample: after `setAuthed("")` the session marker is present
in storage (`getItem` returns the stored empty string), yet
`requireAuth()` still redirects — refuting both halves of the claim at
this input. -/
theorem requireSession_nonredirect_counterexample :
    getItem (setAuthed [] "") "auth_user" = some "" ∧
    requireAuthRedirects (setAuthed [] "") = true := by
  decide

/-- C3 (amended): `requireAuth()` redirects iff the session marker is
absent or is the empty string; for every nonempty email, once
`setAuthed(email)` has been called on the same storage, a subsequent
`requireAuth()` does not redirect. -/
theorem requireSession_redirect_amended (st : Storage) (e : String) :
    (requireAuthRedirects st = true ↔
      (getItem st "auth_user" = none ∨ getItem st "auth_user" = some "")) ∧
    (e ≠ "" → requireAuthRedirects (setAuthed st e) = false) := by
  constructor
  · unfold requireAuthRedirects jsFalsy
    cases h : getItem st "auth_user" with
    | none => simp
    | some s => simp [beq_iff_eq]
  · intro he
    unfold requireAuthRedirects setAuthed
    rw [getItem_setItem_self]
    simpa [jsFalsy] using he

/-- Witness for C3's amended theorem at a concrete input: after
`setAuthed("a@x.com")` on empty storage, `requireAuth` does not
redirect. -/
theorem requireSession_redirect_amended_witness :
    requireAuthRedirects (setAuthed [] "a@x.com") = false :=
  (requireSession_redirect_amended [] "a@x.com").2 (by decide)

/-! ## C10: malformed stored JSON makes register/authenticate throw -/

/-- C10: the stored value `"{"` under the `users` key is not valid JSON
(`JSON.parse` fails on it), and with it in storage both `checkUser` and
`saveUser` propagate the parse error instead of returning normally: the
storage-parse error branch is reachable and there is no fail-closed
fallback. -/
theorem malformedStorage_errors :
    Json.parse "\x7b" = none ∧
    checkUserStorage [("users", "\x7b")] "a@x.com" "pw"
      = Except.error "SyntaxError: JSON.parse" ∧
    saveUserStorage [("users", "\x7b")] "a@x.com" "pw"
      = Except.error "SyntaxError: JSON.parse" :=
  ⟨rfl, rfl, rfl⟩

/-! ## C1: frame-loop single-in-flight invariant -/

/-- The `toBlob` callback always finishes with `sending = false`
(auth.js line 128 runs unconditionally). -/
theorem toBlobCallback_sendingAfter (blob : Option Payload) (w : Bool) :
    (toBlobCallback blob w).sendingAfter = false := by
  cases blob <;> cases w <;> rfl

/-- Loop invariant: the number of in-flight encode/send operations equals
1 exactly when the `sending` flag is set. -/
def loopInv (s : LoopState) : Prop :=
  s.inFlight = (if s.sending then 1 else 0)

theorem loopStep_inv (s : LoopState) (ev : LoopEvent) (h : loopInv s) :
    loopInv (loopStep s ev) := by
  unfold loopInv at h ⊢
  cases ev with
  | tick =>
      by_cases hs : (!s.sending && s.wsOpen && s.videoReady) = true
      · have hsend : s.sending = false := by
          cases hb : s.sending
          · rfl
          · rw [hb] at hs; simp at hs
        rw [hsend] at h
        simp at h
        simp [loopStep, hs, h]
      · simp [loopStep, hs, h]
  | encodeDone blob =>
      by_cases hp : s.inFlight > 0
      · have hsend : s.sending = true := by
          cases hb : s.sending
          · rw [hb] at h; simp at h; omega
          · rfl
        rw [hsend] at h
        simp at h
        simp [loopStep, hp, toBlobCallback_sendingAfter, h]
      · simpa [loopStep, hp] using h
  | wsOpenEvt => simpa [loopStep] using h
  | wsCloseEvt => simpa [loopStep] using h
  | videoReadyEvt => simpa [loopStep] using h
  | videoUnreadyEvt => simpa [loopStep] using h

theorem loopRun_inv (evs : List LoopEvent) : loopInv (loopRun evs) := by
  have main : ∀ l : List LoopEvent, ∀ s, loopInv s → loopInv (l.foldl loopStep s) := by
    intro l
    induction l with
    | nil => intro s h; exact h
    | cons ev rest ih => intro s h; exact ih _ (loopStep_inv s ev h)
  exact main evs loopInit (by simp [loopInv, loopInit])

/-- C1: for every sequence of frame-loop events, at most one encode/send
operation is in flight; a tick arriving while the `sending` flag is set is
a no-op; and the completion of an in-flight encode clears the flag
unconditionally (whatever the blob and socket state). -/
theorem captureLoop_singleInFlight (evs : List LoopEvent) :
    (loopRun evs).inFlight ≤ 1 ∧
    ((loopRun evs).sending = true →
      loopStep (loopRun evs) LoopEvent.tick = loopRun evs) ∧
    (∀ blob, 0 < (loopRun evs).inFlight →
      (loopStep (loopRun evs) (LoopEvent.encodeDone blob)).sending = false) := by
  have h := loopRun_inv evs
  unfold loopInv at h
  refine ⟨?_, ?_, ?_⟩
  · rw [h]
    by_cases hs : (loopRun evs).sending <;> simp [hs]
  · intro hs
    simp [loopStep, hs]
  · intro blob hp
    simp [loopStep, hp, toBlobCallback_sendingAfter]

/-- Witness for C1 at a concrete trace: after the socket opens, the camera
becomes ready and one tick starts an encode, a second tick is a no-op, and
an encode completion clears the flag. -/
theorem captureLoop_singleInFlight_witness :
    loopStep (loopRun [LoopEvent.wsOpenEvt, LoopEvent.videoReadyEvt, LoopEvent.tick])
        LoopEvent.tick
      = loopRun [LoopEvent.wsOpenEvt, LoopEvent.videoReadyEvt, LoopEvent.tick] ∧
    (loopStep (loopRun [LoopEvent.wsOpenEvt, LoopEvent.videoReadyEvt, LoopEvent.tick])
        (LoopEvent.encodeDone (some [1]))).sending = false := by
  have h := captureLoop_singleInFlight
    [LoopEvent.wsOpenEvt, LoopEvent.videoReadyEvt, LoopEvent.tick]
  exact ⟨h.2.1 (by decide), h.2.2 (some [1]) (by decide)⟩

/-! ## C8: guarded send in the `toBlob` callback -/

/-- C8: the encoded payload is transmitted only if encoding produced a
blob and the socket is still open when encoding completes; when both hold
the payload sent is exactly the encoded blob; and in every case the cycle
completes with the `sending` flag cleared. -/
theorem toBlob_guardedSend (blob : Option Payload) (wsOpen : Bool) :
    ((toBlobCallback blob wsOpen).sent.isSome = true →
      blob.isSome = true ∧ wsOpen = true) ∧
    (toBlobCallback blob wsOpen).sendingAfter = false ∧
    (blob.isSome = true ∧ wsOpen = true →
      (toBlobCallback blob wsOpen).sent = blob) := by
  cases blob <;> cases wsOpen <;> simp [toBlobCallback]

/-- Witness for C8 at concrete inputs: with a produced blob and an open
socket the payload is sent, and conversely a sent payload implies both
conditions held. -/
theorem toBlob_guardedSend_witness :
    (toBlobCallback (some [0]) true).sent = some [0] ∧
    ((some ([0] : Payload)).isSome = true ∧ (true : Bool) = true) := by
  have h := toBlob_guardedSend (some [0]) true
  exact ⟨h.2.2 (by decide), h.1 (by decide)⟩

/-! ## C6/C7: control messages on the connection -/

theorem ctrlHead_append (l xs : List Msg) (h : ctrlHead l) :
    ctrlHead (l ++ xs) := by
  obtain ⟨c, v, rest, rfl⟩ := h
  exact ⟨c, v, rest ++ xs, by simp⟩

/-- Connection invariant: nothing is sent before the handshake, and once
anything has been sent (in particular once the socket is open) the log
begins with the `color=` and `conf=` control messages. -/
def connInv (s : ConnState) : Prop :=
  (s.status = ConnStatus.connecting → s.sent = []) ∧
  (s.status = ConnStatus.opened → ctrlHead s.sent) ∧
  (s.sent ≠ [] → ctrlHead s.sent)

theorem connStep_inv (s : ConnState) (ev : ConnEvent) (h : connInv s) :
    connInv (connStep s ev) := by
  obtain ⟨st, sent0, c0, v0⟩ := s
  obtain ⟨h1, h2, h3⟩ := h
  cases ev with
  | handshake =>
      cases st with
      | connecting =>
          have hsent : sent0 = [] := h1 rfl
          subst hsent
          refine ⟨by simp [connStep], ?_, ?_⟩
          · intro _
            exact ⟨c0, v0, [], by simp [connStep]⟩
          · intro _
            exact ⟨c0, v0, [], by simp [connStep]⟩
      | opened => exact ⟨h1, h2, h3⟩
      | closedC => exact ⟨h1, h2, h3⟩
  | frameSend p =>
      cases st with
      | connecting => exact ⟨h1, h2, h3⟩
      | opened =>
          refine ⟨by simp [connStep], ?_, ?_⟩
          · intro _
            exact ctrlHead_append _ _ (h2 rfl)
          · intro _
            exact ctrlHead_append _ _ (h2 rfl)
      | closedC => exact ⟨h1, h2, h3⟩
  | closeEvt =>
      exact ⟨by simp [connStep], by simp [connStep], h3⟩
  | setColor c =>
      cases st with
      | connecting =>
          exact ⟨fun _ => h1 rfl, by simp [connStep], h3⟩
      | opened =>
          refine ⟨by simp [connStep], ?_, ?_⟩
          · intro _
            exact ctrlHead_append _ _ (h2 rfl)
          · intro _
            exact ctrlHead_append _ _ (h2 rfl)
      | closedC =>
          exact ⟨by simp [connStep], by simp [connStep], h3⟩
  | setConf v =>
      cases st with
      | connecting =>
          exact ⟨fun _ => h1 rfl, by simp [connStep], h3⟩
      | opened =>
          refine ⟨by simp [connStep], ?_, ?_⟩
          · intro _
            exact ctrlHead_append _ _ (h2 rfl)
          · intro _
            exact ctrlHead_append _ _ (h2 rfl)
      | closedC =>
          exact ⟨by simp [connStep], by simp [connStep], h3⟩

theorem connRun_inv (c0 v0 : String) (evs : List ConnEvent) :
    connInv (connRun c0 v0 evs) := by
  have main : ∀ l : List ConnEvent, ∀ s, connInv s → connInv (l.foldl connStep s) := by
    intro l
    induction l with
    | nil => intro s h; exact h
    | cons ev rest ih => intro s h; exact ih _ (connStep_inv s ev h)
  refine main evs (connInit c0 v0) ?_
  exact ⟨fun _ => rfl, by simp [connInit], by simp [connInit]⟩

/-- C6: on the transition to OPEN the `onopen` handler emits exactly the
two current settings values, `color=` then `conf=`, and for every event
trace on a connection, if any binary frame has been sent then the log
starts with those two control messages — so both control messages precede
any frame data on that connection. -/
theorem onopen_settings_first (c0 v0 : String) (evs : List ConnEvent)
    (s : ConnState) (p : List Nat) :
    (s.status = ConnStatus.connecting →
      (connStep s ConnEvent.handshake).sent
          = s.sent ++ [Msg.text ("color=" ++ s.color), Msg.text ("conf=" ++ s.conf)] ∧
      (connStep s ConnEvent.handshake).status = ConnStatus.opened) ∧
    (Msg.bin p ∈ (connRun c0 v0 evs).sent → ctrlHead (connRun c0 v0 evs).sent) := by
  constructor
  · intro hst
    obtain ⟨st, sent0, cc, vv⟩ := s
    simp only at hst
    subst hst
    exact ⟨rfl, rfl⟩
  · intro hmem
    have h := connRun_inv c0 v0 evs
    refine h.2.2 ?_
    intro hnil
    rw [hnil] at hmem
    simp at hmem

/-- Witness for C6 at a concrete trace: the handshake emits
`color=green` and `conf=0.5`, and after a frame send the log still starts
with those two control messages. -/
theorem onopen_settings_first_witness :
    (connStep (connInit "green" "0.5") ConnEvent.handshake).sent
        = [Msg.text "color=green", Msg.text "conf=0.5"] ∧
    ctrlHead (connRun "green" "0.5" [ConnEvent.handshake, ConnEvent.frameSend [7]]).sent := by
  have h := onopen_settings_first "green" "0.5"
    [ConnEvent.handshake, ConnEvent.frameSend [7]] (connInit "green" "0.5") [7]
  refine ⟨?_, h.2 (by decide)⟩
  have h1 := (h.1 rfl).1
  simpa [connInit] using h1

/-- C7: while the socket is open, a change of the color selector sends
exactly one `color=<value>` control message, and an input on the
confidence slider sends exactly one `conf=<value>` control message,
appended immediately to the connection's sent log. -/
theorem settings_change_sends_one (s : ConnState) (c v : String) :
    s.status = ConnStatus.opened →
      (connStep s (ConnEvent.setColor c)).sent = s.sent ++ [Msg.text ("color=" ++ c)] ∧
      (connStep s (ConnEvent.setConf v)).sent = s.sent ++ [Msg.text ("conf=" ++ v)] := by
  intro hst
  obtain ⟨st, sent0, cc, vv⟩ := s
  simp only at hst
  subst hst
  exact ⟨rfl, rfl⟩

/-- Witness for C7 at a concrete state: on an open connection, changing
the color to `blue` sends exactly the message `color=blue`. -/
theorem settings_change_sends_one_witness :
    (connStep { status := ConnStatus.opened, sent := [], color := "red", conf := "0.5" }
        (ConnEvent.setColor "blue")).sent = [Msg.text "color=blue"] := by
  have h := settings_change_sends_one
    { status := ConnStatus.opened, sent := [], color := "red", conf := "0.5" } "blue" "0.7" rfl
  simpa using h.1

/-! ## C4: reconnect scheduling -/

theorem filterLive_set (l : List SockSt) (i : Nat) (a b : SockSt)
    (hi : l[i]? = some a) :
    ((l.set i b).filter isLive).length + (if isLive a then 1 else 0)
      = (l.filter isLive).length + (if isLive b then 1 else 0) := by
  induction l generalizing i with
  | nil => simp at hi
  | cons hd rest ih =>
      cases i with
      | zero =>
          have hhd : hd = a := by simpa using hi
          subst hhd
          simp only [List.set]
          cases ha : isLive hd <;> cases hb : isLive b <;>
            simp [List.filter_cons, ha, hb]
      | succ n =>
          have hi' : rest[n]? = some a := by simpa using hi
          have h2 := ih n hi'
          simp only [List.set]
          cases ha : isLive a <;> cases hb : isLive b <;>
            simp [ha, hb] at h2 <;>
            cases hh : isLive hd <;>
            simp [List.filter_cons, hh] <;> omega

theorem liveCount_connectW (s : WsState) :
    liveCount (connectW s) = liveCount s + 1 := by
  simp [liveCount, connectW, List.filter_append, isLive]

/-- Reconnect invariant for click-free runs: at most one connection
attempt or pending reconnect timer exists at any time, and every pending
timer has the fixed 1000 ms delay. -/
def wsInv (s : WsState) : Prop :=
  liveCount s + s.timers.length ≤ 1 ∧ ∀ d ∈ s.timers, d = 1000

theorem wsStep_inv (s : WsState) (ev : WsEvent) (hev : ev ≠ WsEvent.click)
    (h : wsInv s) : wsInv (wsStep s ev) := by
  obtain ⟨hle, htm⟩ := h
  cases ev with
  | click => exact absurd rfl hev
  | handshake i =>
      by_cases hc : s.socks[i]? = some SockSt.connecting
      · have hl := filterLive_set s.socks i SockSt.connecting SockSt.opened hc
        simp [isLive] at hl
        have hstep : wsStep s (WsEvent.handshake i)
            = { s with socks := s.socks.set i SockSt.opened } := by
          simp only [wsStep, if_pos hc]
        rw [hstep]
        refine ⟨?_, htm⟩
        simp only [liveCount] at hle ⊢
        omega
      · have hstep : wsStep s (WsEvent.handshake i) = s := by
          simp only [wsStep, if_neg hc]
        rw [hstep]
        exact ⟨hle, htm⟩
  | closeEvt i =>
      cases hg : s.socks[i]? with
      | none =>
          have hstep : wsStep s (WsEvent.closeEvt i) = s := by
            simp only [wsStep, hg]
          rw [hstep]
          exact ⟨hle, htm⟩
      | some a =>
          cases a with
          | connecting =>
              have hl := filterLive_set s.socks i SockSt.connecting SockSt.closedS hg
              simp [isLive] at hl
              have hstep : wsStep s (WsEvent.closeEvt i)
                  = { s with socks := s.socks.set i SockSt.closedS,
                             timers := s.timers ++ [1000] } := by
                simp only [wsStep, hg]
              rw [hstep]
              refine ⟨?_, ?_⟩
              · simp only [liveCount] at hle ⊢
                simp only [List.length_append, List.length_cons, List.length_nil]
                omega
              · intro d hd
                rcases List.mem_append.mp hd with hd1 | hd2
                · exact htm d hd1
                · simpa using hd2
          | opened =>
              have hl := filterLive_set s.socks i SockSt.opened SockSt.closedS hg
              simp [isLive] at hl
              have hstep : wsStep s (WsEvent.closeEvt i)
                  = { s with socks := s.socks.set i SockSt.closedS,
                             timers := s.timers ++ [1000] } := by
                simp only [wsStep, hg]
              rw [hstep]
              refine ⟨?_, ?_⟩
              · simp only [liveCount] at hle ⊢
                simp only [List.length_append, List.length_cons, List.length_nil]
                omega
              · intro d hd
                rcases List.mem_append.mp hd with hd1 | hd2
                · exact htm d hd1
                · simpa using hd2
          | closedS =>
              have hstep : wsStep s (WsEvent.closeEvt i) = s := by
                simp only [wsStep, hg]
              rw [hstep]
              exact ⟨hle, htm⟩
  | timerFire =>
      cases ht : s.timers with
      | nil =>
          have hstep : wsStep s WsEvent.timerFire = s := by
            simp only [wsStep, ht]
          rw [hstep]
          exact ⟨hle, htm⟩
      | cons d rest =>
          have hstep : wsStep s WsEvent.timerFire
              = connectW { s with timers := rest } := by
            simp only [wsStep, ht]
          rw [hstep]
          refine ⟨?_, ?_⟩
          · rw [liveCount_connectW]
            have hlc : liveCount { s with timers := rest } = liveCount s := rfl
            have htimers : (connectW { s with timers := rest }).timers = rest := rfl
            rw [hlc, htimers]
            rw [ht] at hle
            simp only [List.length_cons] at hle
            omega
          · intro d' hd'
            have htimers : (connectW { s with timers := rest }).timers = rest := rfl
            rw [htimers] at hd'
            exact htm d' (by rw [ht]; exact List.mem_cons_of_mem _ hd')

theorem wsRun_inv (evs : List WsEvent) (s : WsState)
    (hnc : noClick evs = true) (h : wsInv s) : wsInv (wsRun s evs) := by
  induction evs generalizing s with
  | nil => exact h
  | cons ev rest ih =>
      cases ev with
      | click => simp [noClick] at hnc
      | handshake i =>
          exact ih _ (by simpa [noClick] using hnc) (wsStep_inv s _ (by simp) h)
      | closeEvt i =>
          exact ih _ (by simpa [noClick] using hnc) (wsStep_inv s _ (by simp) h)
      | timerFire =>
          exact ih _ (by simpa [noClick] using hnc) (wsStep_inv s _ (by simp) h)

/-- C4 counterexample: the claim quantifies over user actions including
start-button clicks, and fails there. After the trace click, close,
click, timer-fire, two connection attempts are simultaneously in flight
(the click-created one and the scheduled reconnect) — a duplicate parallel
reconnect; and extending the trace with the closes of those two sockets
leaves two reconnect timers pending at once. -/
theorem reconnect_singleAttempt_counterexample :
    liveCount (wsRun wsInit
        [WsEvent.click, WsEvent.closeEvt 0, WsEvent.click, WsEvent.timerFire]) = 2 ∧
    (wsRun wsInit
        [WsEvent.click, WsEvent.closeEvt 0, WsEvent.click, WsEvent.timerFire,
         WsEvent.closeEvt 1, WsEvent.closeEvt 2]).timers = [1000, 1000] := by
  constructor
  · decide
  · decide

/-- C4 (amended): restricted to event sequences without start-button
clicks after the initial connect, the reconnect discipline holds: closing
a live socket schedules exactly one reconnect timer with the fixed
1000 ms delay, every pending timer has that delay, and at every point of
the run at most one connection attempt or pending reconnect exists — no
growth of scheduled attempts and no duplicate parallel reconnects. -/
theorem reconnect_singleAttempt_amended (evs : List WsEvent) (s : WsState) (i : Nat) :
    (noClick evs = true →
      liveCount (wsRun (connectW wsInit) evs)
          + (wsRun (connectW wsInit) evs).timers.length ≤ 1 ∧
      ∀ d ∈ (wsRun (connectW wsInit) evs).timers, d = 1000) ∧
    (isLive ((s.socks[i]?).getD SockSt.closedS) = true →
      (wsStep s (WsEvent.closeEvt i)).timers = s.timers ++ [1000]) := by
  constructor
  · intro hnc
    exact wsRun_inv evs (connectW wsInit) hnc ⟨by decide, by simp [connectW, wsInit]⟩
  · intro hl
    cases hg : s.socks[i]? with
    | none => rw [hg] at hl; simp [isLive] at hl
    | some a =>
        rw [hg] at hl
        cases a with
        | connecting => simp [wsStep, hg]
        | opened => simp [wsStep, hg]
        | closedS => simp [isLive] at hl

/-- Witness for C4's amended theorem at a concrete click-free trace: after
the initial connect, a close followed by the timer firing leaves exactly
one attempt in flight and no pending timer, and the close itself scheduled
exactly one 1000 ms timer. -/
theorem reconnect_singleAttempt_amended_witness :
    (liveCount (wsRun (connectW wsInit) [WsEvent.closeEvt 0, WsEvent.timerFire])
        + (wsRun (connectW wsInit) [WsEvent.closeEvt 0, WsEvent.timerFire]).timers.length ≤ 1) ∧
    (wsStep (connectW wsInit) (WsEvent.closeEvt 0)).timers = [1000] := by
  have h := reconnect_singleAttempt_amended
    [WsEvent.closeEvt 0, WsEvent.timerFire] (connectW wsInit) 0
  refine ⟨(h.1 (by decide)).1, ?_⟩
  have h2 := h.2 (by decide)
  simpa [connectW, wsInit] using h2

/-! ## C9: upload flows always restore their trigger control -/

/-- C9: for both batch upload flows and every submission outcome —
success, server error (non-2xx), or network/transport error — the flow
finishes with its trigger control enabled and carrying its original label,
so no outcome leaves the control stuck disabled in the `Processing…`
state. -/
theorem batch_controls_restored (f : String) (btn : BtnState) (o : Outcome) :
    (submitImageClick (some f) btn o).1
        = { disabled := false, label := "Submit Image" } ∧
    (submitVideoClick (some f) btn o).1
        = { disabled := false, label := "Submit Video" } := by
  cases o <;> exact ⟨rfl, rfl⟩
